import Mathlib

/-!
Shallow embedding of the `change_rules` repository (two Go programs sharing a
data model of PD placement rules):

* `src/check.go` — a validator: reads a JSON array of rules and checks that
  every rule belongs to the `"tiflash"` group and carries a well-formed
  `engine_role NotIn [write]` exclusion constraint, aborting (panic) at the
  first violation.
* `src/enable.go` — a transformer: runs the same two checks on every rule,
  keeps only rules whose `id` contains `"keyspace-<ks>-"` or
  `"keyspace-id-<ks>-"`, and rewrites each kept rule to the
  `"enable_s3_wn_region"` group with `index = 1`, `count = 1` and the two
  constraints `engine_role In [write]`, `engine In [tiflash]`.

JSON parsing, file IO and printing are glue and are not modelled; the input
is a `List Rule` and the observable result is `Except CheckError` of the
printed value.  Panics are modelled as `Except.error` carrying the panic
class.  Go `int` is modelled as `Int`, Go strings as `String`, Go slices of
rules/constraints as Lean lists; the slice-aliasing effect of
`enable.go` lines 127–129 on the input is modelled separately below
(`GoSlice`, `inputConstraintsAfter`).
-/

/-- `LabelConstraintOp`, defined identically in `check.go` and `enable.go`
(the wire strings `"in"`, `"notIn"`, `"exists"`, `"notExists"` are not
needed, only the distinction between the operators). -/
inductive LabelConstraintOp : Type
  | In : LabelConstraintOp
  | NotIn : LabelConstraintOp
  | Exists : LabelConstraintOp
  | NotExists : LabelConstraintOp
deriving DecidableEq, Repr

export LabelConstraintOp (In NotIn)

/-- `LabelConstraint` from both Go files: `{key, op, values}`. -/
structure LabelConstraint : Type where
  key : String
  op : LabelConstraintOp
  values : List String
deriving DecidableEq, Repr

/-- `Rule` from both Go files.  `PeerRoleType` is a string type in Go, so
`role` is a `String` here.  `StartKey`/`EndKey` (raw bytes), `Version`,
`CreateTimestamp` and the unexported `group` back-reference are runtime-only
fields that are never populated from the wire (`json:"-"`); the Go struct
copy carries them verbatim exactly like the hex fields, and they are omitted
here. -/
structure Rule : Type where
  groupID : String
  id : String
  index : Int
  override : Bool
  startKeyHex : String
  endKeyHex : String
  role : String
  isWitness : Bool
  count : Int
  labelConstraints : List LabelConstraint
  locationLabels : List String
  isolationLevel : String
deriving DecidableEq, Repr

/-- `LabelKeyEngineRole` constant from both Go files. -/
def LabelKeyEngineRole : String := "engine_role"

/-- `LabelValueEngineRoleWrite` constant from both Go files. -/
def LabelValueEngineRoleWrite : String := "write"

/-- The panic classes of the two programs.  `notTiflashGroup` is
`"got rule that are not tiflash group"` (identical text in both files);
`invalidRule` is `check.go`'s `"invalid rule: %v"` and `enable.go`'s
identical message; `noExclusionConstraint` is `check.go`'s
`"this rule doesn't disable wn, ignore: %v"` and `enable.go`'s
`"rule should have engine_role constraints: %v"`. -/
inductive CheckError : Type
  | notTiflashGroup : CheckError
  | invalidRule : CheckError
  | noExclusionConstraint : CheckError
deriving DecidableEq, Repr

/-- The inner constraint loop of `check.go` (lines 91–103): scan
`labelConstraints` in order; at the first constraint whose key is
`engine_role`, panic unless its op is `NotIn` with exactly one value equal
to `"write"`, otherwise stop scanning (`break` after setting
`alreadyDisableWriteRole`); if the scan finds no such key, panic with the
"doesn't disable wn" message. -/
def checkRuleExclusion : List LabelConstraint → Except CheckError Unit
  | [] => .error .noExclusionConstraint
  | con :: rest =>
    if con.key = LabelKeyEngineRole then
      if con.op ≠ NotIn ∨ con.values.length ≠ 1 ∨
          con.values.getD 0 "" ≠ LabelValueEngineRoleWrite then
        .error .invalidRule
      else
        .ok ()
    else
      checkRuleExclusion rest

/-- The main loop of `check.go` (lines 87–104): for each rule in order,
panic if its group is not `"tiflash"`, then run the exclusion-constraint
scan; success means the loop finished. -/
def validate : List Rule → Except CheckError Unit
  | [] => .ok ()
  | rule :: rest =>
    if rule.groupID ≠ "tiflash" then .error .notTiflashGroup
    else
      match checkRuleExclusion rule.labelConstraints with
      | .error e => .error e
      | .ok () => validate rest

/-- The inner constraint loop of `enable.go` (lines 107–119), textually the
same loop as `check.go`'s, duplicated here because the source duplicates
it. -/
def transformExclusionCheck : List LabelConstraint → Except CheckError Unit
  | [] => .error .noExclusionConstraint
  | con :: rest =>
    if con.key = LabelKeyEngineRole then
      if con.op ≠ NotIn ∨ con.values.length ≠ 1 ∨
          con.values.getD 0 "" ≠ LabelValueEngineRoleWrite then
        .error .invalidRule
      else
        .ok ()
    else
      transformExclusionCheck rest

/-- `keyspacePrefix1` from `enable.go` line 83: `"keyspace-<ks>-"`. -/
def keyspacePrefix1 (ks : String) : String := "keyspace-" ++ ks ++ "-"

/-- `keyspacePrefix2` from `enable.go` line 84: `"keyspace-id-<ks>-"`. -/
def keyspacePrefix2 (ks : String) : String := "keyspace-id-" ++ ks ++ "-"

/-- Go's `strings.Contains s sub`: some offset of `s` starts with `sub`. -/
def strContains (s sub : String) : Bool :=
  (List.range (s.data.length + 1)).any fun i => sub.data.isPrefixOf (s.data.drop i)

/-- The scope test of `enable.go` line 120 (negated there to `continue`):
the rule's `id` contains one of the two keyspace patterns. -/
def ruleInScope (ks : String) (r : Rule) : Bool :=
  strContains r.id (keyspacePrefix1 ks) || strContains r.id (keyspacePrefix2 ks)

/-- `wnConstraint` from `enable.go` lines 96–100. -/
def wnConstraint : LabelConstraint :=
  { key := "engine_role", op := In, values := ["write"] }

/-- `tiflashConstraint` from `enable.go` lines 91–95. -/
def tiflashConstraint : LabelConstraint :=
  { key := "engine", op := In, values := ["tiflash"] }

/-- The value computed for an in-scope rule by `enable.go` lines 124–130:
the loop variable is a struct copy of the input rule, whose
`GroupID`/`Index`/`Count` are overwritten and whose `LabelConstraints` is
truncated to length 0 and then appended with `wnConstraint` and
`tiflashConstraint`, yielding the two-element list (the aliasing of that
append with the input's backing array is modelled separately by
`inputConstraintsAfter`). -/
def rewriteRule (r : Rule) : Rule :=
  { r with
    groupID := "enable_s3_wn_region"
    index := 1
    count := 1
    labelConstraints := [wnConstraint, tiflashConstraint] }

/-- The main loop of `enable.go` (lines 102–131): for each rule in order,
panic on a non-`tiflash` group, run the exclusion-constraint scan, skip
(`continue`) rules matching neither keyspace pattern, and append the
rewritten rule to `newRules`.  The printed output is `newRules`. -/
def transform (ks : String) : List Rule → Except CheckError (List Rule)
  | [] => .ok []
  | rule :: rest =>
    if rule.groupID ≠ "tiflash" then .error .notTiflashGroup
    else
      match transformExclusionCheck rule.labelConstraints with
      | .error e => .error e
      | .ok () =>
        if !strContains rule.id (keyspacePrefix1 ks) &&
            !strContains rule.id (keyspacePrefix2 ks) then
          transform ks rest
        else
          match transform ks rest with
          | .error e => .error e
          | .ok rs => .ok (rewriteRule rule :: rs)

instance {ε α : Type} [DecidableEq ε] [DecidableEq α] : DecidableEq (Except ε α) := fun x y =>
  match x, y with
  | .ok a, .ok b =>
    if h : a = b then .isTrue (by rw [h]) else .isFalse (by simp [h])
  | .error a, .error b =>
    if h : a = b then .isTrue (by rw [h]) else .isFalse (by simp [h])
  | .ok _, .error _ => .isFalse (by simp)
  | .error _, .ok _ => .isFalse (by simp)

/-- Whether an `Except` result is a success. -/
def exceptIsOk {ε α : Type} : Except ε α → Bool
  | .ok _ => true
  | .error _ => false

/-- The single-rule validity test that both programs implement: `tiflash`
group and a passing exclusion-constraint scan. -/
def ruleValid (r : Rule) : Bool :=
  r.groupID = "tiflash" && exceptIsOk (checkRuleExclusion r.labelConstraints)

/-- A Go slice header over a backing array, as needed for
`enable.go` lines 127–129.  The offset is 0 throughout that code, so a
header is the backing array's contents (whose length is the capacity) plus
the slice length.  `json.Unmarshal` may allocate capacity beyond the
length; the model takes capacity = length, which yields the same
observable contents of the input slice (writes at positions ≥ length are
invisible to it). -/
structure GoSlice (α : Type) : Type where
  backing : List α
  len : Nat
deriving DecidableEq, Repr

/-- The contents a Go slice header denotes. -/
def GoSlice.view {α : Type} (s : GoSlice α) : List α := s.backing.take s.len

/-- Go's `append(s, x)`: write in place past the end when capacity allows
(mutating the shared backing array), otherwise copy into a fresh array. -/
def goAppend {α : Type} (s : GoSlice α) (x : α) : GoSlice α :=
  if s.len < s.backing.length then ⟨s.backing.set s.len x, s.len + 1⟩
  else ⟨s.backing.take s.len ++ [x], s.len + 1⟩

/-- The contents of an input rule's `LabelConstraints` after `enable.go`
lines 127–129 ran on that rule.  The loop variable's header starts as an
alias of the input's header `⟨orig, orig.length⟩`; line 127 reslices it to
length 0; the append of `wnConstraint` writes through the shared backing
array when the capacity is nonzero (otherwise it allocates afresh and the
input is no longer affected), and likewise the append of
`tiflashConstraint` when the first append stayed in place and the capacity
exceeds 1.  The input's own header keeps length `orig.length`, so its
contents are the first `orig.length` elements of the final backing
array. -/
def inputConstraintsAfter (orig : List LabelConstraint) : List LabelConstraint :=
  let s0 : GoSlice LabelConstraint := ⟨orig, 0⟩
  let s1 := goAppend s0 wnConstraint
  if s0.len < s0.backing.length then
    if s1.len < s1.backing.length then
      ((goAppend s1 tiflashConstraint).backing).take orig.length
    else
      s1.backing.take orig.length
  else
    orig

/-- The state of one input rule after a completed transformer run: the loop
(lines 103–130) rewrote the rule's constraint backing array exactly when
the rule reached lines 124–129, i.e. when it matched the scope; the struct
copy at line 103 shields every other field. -/
def inputRuleAfter (ks : String) (r : Rule) : Rule :=
  if ruleInScope ks r then
    { r with labelConstraints := inputConstraintsAfter r.labelConstraints }
  else r

/-- The state of the whole input rule list after a completed transformer
run. -/
def inputRulesAfter (ks : String) (rules : List Rule) : List Rule :=
  rules.map (inputRuleAfter ks)

/-- The spec's reading of the exclusion check in claim form: the rule HAS
(somewhere) a constraint keyed `engine_role` with op `NotIn` and values
exactly `["write"]`.  Stated from the spec's words, for comparison with the
source's first-match scan. -/
def specHasWellFormedExclusion (cs : List LabelConstraint) : Bool :=
  cs.any fun c =>
    c.key = LabelKeyEngineRole && c.op = NotIn &&
      c.values = [LabelValueEngineRoleWrite]

/-- The spec §4.1 Constraint Matcher: `FindConstraint(constraints, key)`,
first match wins (this function is described by the spec; the two Go
files inline it as their constraint loops). -/
def FindConstraint : List LabelConstraint → String → Option LabelConstraint
  | [], _ => none
  | c :: rest, key => if c.key = key then some c else FindConstraint rest key

/-- The well-formed exclusion constraint `engine_role NotIn [write]`. -/
def exclConstraint : LabelConstraint :=
  { key := "engine_role", op := NotIn, values := ["write"] }

/-- A concrete well-formed rule in scope of keyspace `ks1` (the spec §8
scenario input). -/
def sampleRule : Rule :=
  { groupID := "tiflash"
    id := "keyspace-ks1-r1"
    index := 0
    override := false
    startKeyHex := "7480"
    endKeyHex := "7481"
    role := "learner"
    isWitness := false
    count := 3
    labelConstraints := [exclConstraint]
    locationLabels := ["zone"]
    isolationLevel := "zone" }

/-- A concrete well-formed rule out of scope of keyspace `ks1`. -/
def outOfScopeRule : Rule := { sampleRule with id := "keyspace-ks2-r1" }

/-- A concrete rule from a foreign group. -/
def badGroupRule : Rule := { sampleRule with groupID := "pd" }

/-- A concrete rule lacking any `engine_role` constraint. -/
def noExclRule : Rule :=
  { sampleRule with labelConstraints := [{ key := "engine", op := In, values := ["tiflash"] }] }

/-- A constraint list holding a malformed `engine_role` constraint ahead of
a well-formed one. -/
def mixedConstraints : List LabelConstraint :=
  [{ key := "engine_role", op := In, values := ["write"] }, exclConstraint]

example : checkRuleExclusion [⟨"engine_role", NotIn, ["write"]⟩] = .ok () := by decide

example : checkRuleExclusion [⟨"a", In, []⟩, ⟨"engine_role", NotIn, ["write"]⟩] = .ok () := by
  decide

example : checkRuleExclusion [⟨"engine_role", In, ["write"]⟩] = .error .invalidRule := by
  decide

example : checkRuleExclusion [⟨"a", In, []⟩] = .error .noExclusionConstraint := by decide

example : strContains "keyspace-ks1-r1" "keyspace-ks1-" = true := by decide

example : strContains "keyspace-ks1-r1" "keyspace-id-ks1-" = false := by decide

example : strContains "xkeyspace-id-ks1-r1" "keyspace-id-ks1-" = true := by decide

example : transform "ks1" [sampleRule] = .ok [rewriteRule sampleRule] := by decide

example : transform "ks1" [outOfScopeRule] = .ok [] := by decide

example : transform "ks1" [badGroupRule] = .error .notTiflashGroup := by decide

example : transform "ks1" [noExclRule] = .error .noExclusionConstraint := by decide

example : validate [sampleRule, outOfScopeRule] = .ok () := by decide

example : inputConstraintsAfter [exclConstraint] = [wnConstraint] := by decide

theorem values_wellFormed_iff (vs : List String) (w : String) :
    (vs.length = 1 ∧ vs.getD 0 "" = w) ↔ vs = [w] := by
  cases vs with
  | nil => simp
  | cons a t =>
    cases t with
    | nil => simp [List.getD]
    | cons b t' => simp

theorem malformed_cond_iff (con : LabelConstraint) :
    (con.op ≠ NotIn ∨ con.values.length ≠ 1 ∨
        con.values.getD 0 "" ≠ LabelValueEngineRoleWrite) ↔
      ¬(con.op = NotIn ∧ con.values = [LabelValueEngineRoleWrite]) := by
  rw [← values_wellFormed_iff con.values LabelValueEngineRoleWrite]
  tauto

/-- The two Go files inline the same exclusion-constraint scan; the two
copies agree on every constraint list. -/
theorem exclusionCheck_eq (cs : List LabelConstraint) :
    transformExclusionCheck cs = checkRuleExclusion cs := by
  induction cs with
  | nil => rfl
  | cons con rest ih =>
    simp only [transformExclusionCheck, checkRuleExclusion]
    rw [ih]

/-- The exclusion scan in terms of the spec's first-match Constraint
Matcher. -/
theorem checkRuleExclusion_find (cs : List LabelConstraint) :
    checkRuleExclusion cs =
      match FindConstraint cs LabelKeyEngineRole with
      | none => .error .noExclusionConstraint
      | some c =>
        if c.op = NotIn ∧ c.values = [LabelValueEngineRoleWrite] then .ok ()
        else .error .invalidRule := by
  induction cs with
  | nil => rfl
  | cons con rest ih =>
    simp only [checkRuleExclusion, FindConstraint]
    by_cases hk : con.key = LabelKeyEngineRole
    · simp only [hk, if_true]
      by_cases hw : con.op = NotIn ∧ con.values = [LabelValueEngineRoleWrite]
      · rw [if_neg, if_pos hw]
        rw [malformed_cond_iff]
        exact not_not_intro hw
      · rw [if_pos, if_neg hw]
        rw [malformed_cond_iff]
        exact hw
    · simp only [hk, if_false]
      exact ih

/-- The validator succeeds exactly when every rule is valid. -/
theorem validate_ok_iff (rules : List Rule) :
    validate rules = .ok () ↔ ∀ r ∈ rules, ruleValid r = true := by
  induction rules with
  | nil => simp [validate]
  | cons rule rest ih =>
    simp only [validate]
    by_cases hg : rule.groupID = "tiflash"
    · cases h : checkRuleExclusion rule.labelConstraints with
      | error e => simp [hg, h, ruleValid, exceptIsOk]
      | ok u =>
        cases u
        simp [hg, h, ruleValid, exceptIsOk, ih]
    · simp [hg, ruleValid]

/-- If every rule is valid, the transformer succeeds and outputs the
rewritten in-scope rules in input order. -/
theorem transform_ok_of_valid (ks : String) (rules : List Rule)
    (hv : ∀ r ∈ rules, ruleValid r = true) :
    transform ks rules = .ok ((rules.filter (ruleInScope ks)).map rewriteRule) := by
  induction rules with
  | nil => rfl
  | cons rule rest ih =>
    have hhead := hv rule (List.mem_cons_self rule rest)
    have htail : ∀ r ∈ rest, ruleValid r = true := fun r hr =>
      hv r (List.mem_cons_of_mem rule hr)
    have hg : rule.groupID = "tiflash" := by
      simp only [ruleValid, Bool.and_eq_true, decide_eq_true_eq] at hhead
      exact hhead.1
    have hex : checkRuleExclusion rule.labelConstraints = .ok () := by
      simp only [ruleValid, Bool.and_eq_true, decide_eq_true_eq] at hhead
      cases h : checkRuleExclusion rule.labelConstraints with
      | error e => rw [h] at hhead; exact absurd hhead.2 (by simp [exceptIsOk])
      | ok u => cases u; rfl
    simp only [transform, hg, ne_eq, not_true_eq_false, if_false,
      exclusionCheck_eq, hex, List.filter_cons]
    by_cases hs : ruleInScope ks rule
    · have hcond : (!strContains rule.id (keyspacePrefix1 ks) &&
          !strContains rule.id (keyspacePrefix2 ks)) = false := by
        simp only [ruleInScope, Bool.or_eq_true] at hs
        rcases hs with hs | hs <;> simp [hs]
      rw [hcond]
      simp only [Bool.false_eq_true, if_false, ih htail, hs, if_pos, List.map_cons]
    · have hs' : ruleInScope ks rule = false := by
        exact Bool.not_eq_true _ ▸ (by simpa using hs)
      have hcond : (!strContains rule.id (keyspacePrefix1 ks) &&
          !strContains rule.id (keyspacePrefix2 ks)) = true := by
        simp only [ruleInScope, Bool.or_eq_false_iff] at hs'
        simp [hs'.1, hs'.2]
      rw [hcond]
      simp only [if_true, ih htail, hs', Bool.false_eq_true, if_false]

/-- If the transformer succeeds, every input rule passed both checks. -/
theorem transform_valid_of_ok (ks : String) (rules : List Rule) (out : List Rule)
    (h : transform ks rules = .ok out) : ∀ r ∈ rules, ruleValid r = true := by
  induction rules generalizing out with
  | nil => simp
  | cons rule rest ih =>
    simp only [transform] at h
    by_cases hg : rule.groupID = "tiflash"
    · rw [if_neg (by simp [hg])] at h
      cases hex : transformExclusionCheck rule.labelConstraints with
      | error e => rw [hex] at h; exact absurd h (by simp)
      | ok u =>
        cases u
        rw [hex] at h
        have hvalid : ruleValid rule = true := by
          simp only [ruleValid, hg, decide_True, Bool.true_and]
          rw [exclusionCheck_eq] at hex
          simp [hex, exceptIsOk]
        intro r hr
        rcases List.mem_cons.mp hr with hr | hr
        · exact hr ▸ hvalid
        · by_cases hc : (!strContains rule.id (keyspacePrefix1 ks) &&
              !strContains rule.id (keyspacePrefix2 ks)) = true
          · rw [if_pos hc] at h
            exact ih out h r hr
          · rw [if_neg hc] at h
            cases ht : transform ks rest with
            | error e => rw [ht] at h; exact absurd h (by simp)
            | ok rs => exact ih rs ht r hr
    · rw [if_pos (by simp [hg])] at h
      exact absurd h (by simp)

/-- If the transformer succeeds, the output is exactly the rewritten
in-scope rules in input order. -/
theorem transform_out_of_ok (ks : String) (rules : List Rule) (out : List Rule)
    (h : transform ks rules = .ok out) :
    out = (rules.filter (ruleInScope ks)).map rewriteRule := by
  have hv := transform_valid_of_ok ks rules out h
  have h2 := transform_ok_of_valid ks rules hv
  rw [h] at h2
  exact Except.ok.inj h2

/-- The visible contents of an input rule's constraint slice after the
transformer's in-place rebuild: the first two positions (as far as the
slice reaches) now hold the two new constraints, the rest is untouched. -/
theorem inputConstraintsAfter_eq (orig : List LabelConstraint) :
    inputConstraintsAfter orig =
      [wnConstraint, tiflashConstraint].take orig.length ++ orig.drop 2 := by
  match orig with
  | [] => rfl
  | [a] => rfl
  | a :: b :: t =>
    simp only [inputConstraintsAfter, goAppend, List.length_cons, List.set]
    rw [if_pos (Nat.succ_pos _), if_pos (by simp)]
    simp [List.take_succ_cons, List.take_length]

/-- A failing head rule makes the validator's verdict independent of the
rules behind it. -/
theorem validate_cons_fail (r : Rule) (s : List Rule) (hbad : ruleValid r = false) :
    validate (r :: s) = validate [r] := by
  simp only [validate]
  by_cases hg : r.groupID = "tiflash"
  · rw [if_neg (by simp [hg]), if_neg (by simp [hg])]
    cases hex : checkRuleExclusion r.labelConstraints with
    | error e => rfl
    | ok u =>
      cases u
      exfalso
      simp [ruleValid, hg, hex, exceptIsOk] at hbad
  · rw [if_pos (by simp [hg]), if_pos (by simp [hg])]

/-- The validator's verdict does not depend on rules behind the first
failing rule. -/
theorem validate_append_fail (pre : List Rule) (r : Rule) (s s' : List Rule)
    (hbad : ruleValid r = false) :
    validate (pre ++ r :: s) = validate (pre ++ r :: s') := by
  induction pre with
  | nil =>
    rw [List.nil_append, List.nil_append, validate_cons_fail r s hbad,
      validate_cons_fail r s' hbad]
  | cons p ps ih =>
    simp only [List.cons_append, validate, List.append_eq]
    rw [ih]

/-- The scope test reads only the rule's id. -/
theorem ruleInScope_id (ks : String) (r q : Rule) (h : r.id = q.id) :
    ruleInScope ks r = ruleInScope ks q := by
  simp [ruleInScope, h]

/-- When every constraint ahead of a well-formed `engine_role` constraint
has a different key, the scan succeeds, whatever comes after it. -/
theorem checkRuleExclusion_of_first (pre : List LabelConstraint) (c : LabelConstraint)
    (suf : List LabelConstraint) (hkey : c.key = LabelKeyEngineRole) (hop : c.op = NotIn)
    (hval : c.values = [LabelValueEngineRoleWrite]) :
    (∀ d ∈ pre, d.key ≠ LabelKeyEngineRole) → checkRuleExclusion (pre ++ c :: suf) = .ok () := by
  induction pre with
  | nil =>
    intro _
    have hcond : ¬(c.op ≠ NotIn ∨ c.values.length ≠ 1 ∨
        c.values.getD 0 "" ≠ LabelValueEngineRoleWrite) :=
      (not_congr (malformed_cond_iff c)).mpr (not_not_intro ⟨hop, hval⟩)
    simp only [List.nil_append, checkRuleExclusion]
    rw [if_pos hkey, if_neg hcond]
  | cons d ds ih =>
    intro hpre
    simp only [List.cons_append, checkRuleExclusion]
    rw [if_neg (hpre d (List.mem_cons_self d ds))]
    exact ih fun e he => hpre e (List.mem_cons_of_mem d he)

/-- C1: on a successful transformer run, every validated input rule whose
id matches the scope contributes its rewritten rule to the output; that
output rule has groupID "enable_s3_wn_region", index 1, count 1, and its
labelConstraints are replaced wholesale with exactly the two constraints
engine_role In [write] and engine In [tiflash], in this order. -/
theorem C1_output_rule_shape (ks : String) (rules out : List Rule) (r : Rule)
    (h : transform ks rules = .ok out) (hr : r ∈ rules) (hs : ruleInScope ks r = true) :
    rewriteRule r ∈ out ∧
      (rewriteRule r).groupID = "enable_s3_wn_region" ∧
      (rewriteRule r).index = 1 ∧ (rewriteRule r).count = 1 ∧
      (rewriteRule r).labelConstraints = [wnConstraint, tiflashConstraint] := by
  refine ⟨?_, rfl, rfl, rfl, rfl⟩
  rw [transform_out_of_ok ks rules out h]
  exact List.mem_map_of_mem _ (List.mem_filter.mpr ⟨hr, hs⟩)

/-- C1 witness: the spec §8 scenario input, evaluated. -/
theorem C1_output_rule_shape_witness :
    rewriteRule sampleRule ∈ [rewriteRule sampleRule] ∧
      (rewriteRule sampleRule).groupID = "enable_s3_wn_region" ∧
      (rewriteRule sampleRule).index = 1 ∧ (rewriteRule sampleRule).count = 1 ∧
      (rewriteRule sampleRule).labelConstraints = [wnConstraint, tiflashConstraint] :=
  C1_output_rule_shape "ks1" [sampleRule] [rewriteRule sampleRule] sampleRule
    (by decide) (by decide) (by decide)

/-- C2 counterexample: a constraint list that HAS a well-formed
engine_role NotIn [write] constraint (behind a malformed engine_role
constraint) nevertheless fails the scan with the malformed-constraint
error in both programs, so passing is not equivalent to the existence of a
well-formed exclusion constraint. -/
theorem C2_exists_reading_cex :
    specHasWellFormedExclusion mixedConstraints = true ∧
      checkRuleExclusion mixedConstraints = .error .invalidRule ∧
      transformExclusionCheck mixedConstraints = .error .invalidRule ∧
      ¬(checkRuleExclusion mixedConstraints = .ok () ↔
          specHasWellFormedExclusion mixedConstraints = true) := by
  decide

/-- C2 (amended): the exclusion check passes iff the FIRST constraint
keyed engine_role exists and has op NotIn with values exactly [write]; if
no engine_role-keyed constraint exists it fails with the
lacks-exclusion-constraint error, and if the first one is otherwise shaped
it fails with the malformed-constraint error; the validator's and the
transformer's scans agree on every input. -/
theorem C2_exclusion_first_match (cs : List LabelConstraint) :
    (checkRuleExclusion cs = .ok () ↔
      ∃ c, FindConstraint cs LabelKeyEngineRole = some c ∧
        c.op = NotIn ∧ c.values = [LabelValueEngineRoleWrite]) ∧
    (checkRuleExclusion cs = .error .noExclusionConstraint ↔
      FindConstraint cs LabelKeyEngineRole = none) ∧
    (checkRuleExclusion cs = .error .invalidRule ↔
      ∃ c, FindConstraint cs LabelKeyEngineRole = some c ∧
        ¬(c.op = NotIn ∧ c.values = [LabelValueEngineRoleWrite])) ∧
    transformExclusionCheck cs = checkRuleExclusion cs := by
  refine ⟨?_, ?_, ?_, exclusionCheck_eq cs⟩ <;> rw [checkRuleExclusion_find] <;>
    cases hf : FindConstraint cs LabelKeyEngineRole with
  | none => simp
  | some c =>
    by_cases hw : c.op = NotIn ∧ c.values = [LabelValueEngineRoleWrite] <;>
      simp [hw] <;> tauto

/-- C3: an input containing a rule from a foreign group makes both the
validator and the transformer fail; only all-tiflash rule sets are
processed. -/
theorem C3_bad_group_fails (ks : String) (rules : List Rule)
    (h : ∃ r ∈ rules, r.groupID ≠ "tiflash") :
    validate rules ≠ .ok () ∧ ∀ out, transform ks rules ≠ .ok out := by
  obtain ⟨r, hr, hg⟩ := h
  constructor
  · intro hok
    have := (validate_ok_iff rules).mp hok r hr
    simp only [ruleValid, Bool.and_eq_true, decide_eq_true_eq] at this
    exact hg this.1
  · intro out hok
    have := transform_valid_of_ok ks rules out hok r hr
    simp only [ruleValid, Bool.and_eq_true, decide_eq_true_eq] at this
    exact hg this.1

/-- C3 witness: the foreign-group rule, evaluated. -/
theorem C3_bad_group_fails_witness :
    validate [badGroupRule] ≠ .ok () ∧ transform "ks1" [badGroupRule] ≠ .ok [] := by
  have h := C3_bad_group_fails "ks1" [badGroupRule] ⟨badGroupRule, by decide, by decide⟩
  exact ⟨h.1, h.2 []⟩

/-- C4: both pipelines are all-or-nothing: the validator succeeds iff
every rule passes both checks, and after a failing rule its verdict is
already settled (independent of the remaining rules); the transformer
validates every rule unconditionally — scope plays no part in success —
and a single invalid rule anywhere makes the whole run fail with no
output. -/
theorem C4_all_or_nothing (ks : String) (rules pre suf suf' : List Rule) (r : Rule)
    (hbad : ruleValid r = false) :
    (validate rules = .ok () ↔ ∀ q ∈ rules, ruleValid q = true) ∧
    (exceptIsOk (transform ks rules) = true ↔ ∀ q ∈ rules, ruleValid q = true) ∧
    validate (pre ++ r :: suf) = validate (pre ++ r :: suf') ∧
    exceptIsOk (transform ks (pre ++ r :: suf)) = false := by
  refine ⟨validate_ok_iff rules, ?_, validate_append_fail pre r suf suf' hbad, ?_⟩
  · constructor
    · intro hok
      cases ht : transform ks rules with
      | error e => rw [ht] at hok; exact absurd hok (by simp [exceptIsOk])
      | ok os => exact transform_valid_of_ok ks rules os ht
    · intro hv
      rw [transform_ok_of_valid ks rules hv]
      rfl
  · cases ht : transform ks (pre ++ r :: suf) with
    | error e => rfl
    | ok os =>
      exfalso
      have := transform_valid_of_ok ks (pre ++ r :: suf) os ht r
        (List.mem_append_right pre (List.mem_cons_self r suf))
      rw [hbad] at this
      exact Bool.false_ne_true this

/-- C4 witness: a rule lacking the exclusion constraint in second
position, evaluated with two different tails. -/
theorem C4_all_or_nothing_witness :
    validate ([sampleRule] ++ noExclRule :: [outOfScopeRule]) =
        validate ([sampleRule] ++ noExclRule :: []) ∧
      exceptIsOk (transform "ks1" ([sampleRule] ++ noExclRule :: [outOfScopeRule])) = false := by
  have h := C4_all_or_nothing "ks1" [sampleRule] [sampleRule] [outOfScopeRule] []
    noExclRule (by decide)
  exact ⟨h.2.2.1, h.2.2.2⟩

/-- C5: when every rule passes validation the transformer succeeds, and
the output consists exactly of the rewrites of those rules whose id
contains "keyspace-<ks>-" or "keyspace-id-<ks>-" as a substring; a rule
matching neither pattern is dropped without being an error. -/
theorem C5_scope_filter (ks : String) (rules : List Rule)
    (hv : ∀ r ∈ rules, ruleValid r = true) :
    transform ks rules = .ok ((rules.filter fun r =>
      strContains r.id (keyspacePrefix1 ks) ||
        strContains r.id (keyspacePrefix2 ks)).map rewriteRule) :=
  transform_ok_of_valid ks rules hv

/-- C5 witness: one in-scope and one out-of-scope rule, evaluated. -/
theorem C5_scope_filter_witness :
    transform "ks1" [sampleRule, outOfScopeRule] =
      .ok (([sampleRule, outOfScopeRule].filter fun r =>
        strContains r.id (keyspacePrefix1 "ks1") ||
          strContains r.id (keyspacePrefix2 "ks1")).map rewriteRule) :=
  C5_scope_filter "ks1" [sampleRule, outOfScopeRule] (by decide)

/-- C6: a successful transformer run outputs the in-scope rules rewritten
in input order (no insertion, no duplication beyond the input's own), with
output no longer than the input and every dropped rule absent from the
output by id. -/
theorem C6_order_preserved (ks : String) (rules out : List Rule)
    (h : transform ks rules = .ok out) :
    out = (rules.filter (ruleInScope ks)).map rewriteRule ∧
      out.length ≤ rules.length ∧
      ∀ r ∈ rules, ruleInScope ks r = false → ∀ q ∈ out, q.id ≠ r.id := by
  have hout := transform_out_of_ok ks rules out h
  refine ⟨hout, ?_, ?_⟩
  · rw [hout, List.length_map]
    exact List.length_filter_le _ _
  · intro r hr hscope q hq hid
    rw [hout] at hq
    rcases List.mem_map.mp hq with ⟨p, hp, rfl⟩
    have hpin : ruleInScope ks p = true := (List.mem_filter.mp hp).2
    have hpid : p.id = r.id := hid
    rw [ruleInScope_id ks p r hpid] at hpin
    rw [hscope] at hpin
    exact Bool.false_ne_true hpin

/-- C6 witness: one in-scope and one out-of-scope rule, evaluated. -/
theorem C6_order_preserved_witness :
    [rewriteRule sampleRule] =
        (([sampleRule, outOfScopeRule].filter (ruleInScope "ks1")).map rewriteRule) ∧
      [rewriteRule sampleRule].length ≤ [sampleRule, outOfScopeRule].length ∧
      (rewriteRule sampleRule).id ≠ outOfScopeRule.id := by
  have h := C6_order_preserved "ks1" [sampleRule, outOfScopeRule]
    [rewriteRule sampleRule] (by decide)
  exact ⟨h.1, h.2.1, h.2.2 outOfScopeRule (by decide) (by decide)
    (rewriteRule sampleRule) (by decide)⟩

/-- C7: the validator is not closed over the transformer: whenever a
transformer run succeeds with a nonempty output, validating that output
fails at its first rule with the foreign-group error, because every output
rule's groupID is "enable_s3_wn_region". -/
theorem C7_validator_not_closed (ks : String) (rules out : List Rule)
    (h : transform ks rules = .ok out) (hne : out ≠ []) :
    validate out = .error .notTiflashGroup := by
  have hout := transform_out_of_ok ks rules out h
  cases out with
  | nil => exact absurd rfl hne
  | cons o os =>
    have ho : o.groupID = "enable_s3_wn_region" := by
      have hmem : o ∈ (rules.filter (ruleInScope ks)).map rewriteRule := by
        rw [← hout]
        exact List.mem_cons_self o os
      rcases List.mem_map.mp hmem with ⟨p, _, hp⟩
      rw [← hp]
      rfl
    simp only [validate, ho]
    rw [if_pos (by decide)]

/-- C7 witness: the spec §8 scenario input, evaluated. -/
theorem C7_validator_not_closed_witness :
    validate [rewriteRule sampleRule] = .error .notTiflashGroup :=
  C7_validator_not_closed "ks1" [sampleRule] [rewriteRule sampleRule]
    (by decide) (by decide)

/-- C8: every field of an in-scope rule other than groupID, index, count
and labelConstraints — id, the range bounds, role, locationLabels,
isolationLevel (and the pass-through override and isWitness flags) — is
carried over unchanged into the corresponding output rule of a successful
transformer run. -/
theorem C8_frame (ks : String) (rules out : List Rule) (r : Rule)
    (h : transform ks rules = .ok out) (hr : r ∈ rules) (hs : ruleInScope ks r = true) :
    rewriteRule r ∈ out ∧
      (rewriteRule r).id = r.id ∧
      (rewriteRule r).startKeyHex = r.startKeyHex ∧
      (rewriteRule r).endKeyHex = r.endKeyHex ∧
      (rewriteRule r).role = r.role ∧
      (rewriteRule r).locationLabels = r.locationLabels ∧
      (rewriteRule r).isolationLevel = r.isolationLevel ∧
      (rewriteRule r).override = r.override ∧
      (rewriteRule r).isWitness = r.isWitness := by
  refine ⟨?_, rfl, rfl, rfl, rfl, rfl, rfl, rfl, rfl⟩
  rw [transform_out_of_ok ks rules out h]
  exact List.mem_map_of_mem _ (List.mem_filter.mpr ⟨hr, hs⟩)

/-- C8 witness: the spec §8 scenario input, evaluated. -/
theorem C8_frame_witness :
    rewriteRule sampleRule ∈ [rewriteRule sampleRule] ∧
      (rewriteRule sampleRule).id = sampleRule.id ∧
      (rewriteRule sampleRule).startKeyHex = sampleRule.startKeyHex ∧
      (rewriteRule sampleRule).endKeyHex = sampleRule.endKeyHex ∧
      (rewriteRule sampleRule).role = sampleRule.role ∧
      (rewriteRule sampleRule).locationLabels = sampleRule.locationLabels ∧
      (rewriteRule sampleRule).isolationLevel = sampleRule.isolationLevel ∧
      (rewriteRule sampleRule).override = sampleRule.override ∧
      (rewriteRule sampleRule).isWitness = sampleRule.isWitness :=
  C8_frame "ks1" [sampleRule] [rewriteRule sampleRule] sampleRule
    (by decide) (by decide) (by decide)

/-- C9 counterexample: on the spec §8 scenario input the transformer run
succeeds, yet the input rule is mutated: its labelConstraints slice still
holds one constraint, but that constraint has been overwritten in place
from engine_role NotIn [write] to engine_role In [write]. -/
theorem C9_input_mutated_cex :
    exceptIsOk (transform "ks1" [sampleRule]) = true ∧
      inputRulesAfter "ks1" [sampleRule] ≠ [sampleRule] ∧
      (inputRuleAfter "ks1" sampleRule).labelConstraints = [wnConstraint] := by
  decide

/-- C9 (amended): the transformer works on struct copies, so after a
successful run every non-labelConstraints field of every input rule is
unchanged; but the rebuilt constraint list shares the input slice's
backing array, so each in-scope rule's labelConstraints has its first two
positions (as far as the slice reaches) overwritten in place with the
engine_role In [write] and engine In [tiflash] constraints, the rest being
untouched; out-of-scope rules are unchanged. -/
theorem C9_input_mutation (ks : String) (rules out : List Rule)
    (_h : transform ks rules = .ok out) :
    inputRulesAfter ks rules = rules.map fun r =>
      if ruleInScope ks r then
        { r with labelConstraints :=
            [wnConstraint, tiflashConstraint].take r.labelConstraints.length ++
              r.labelConstraints.drop 2 }
      else r := by
  unfold inputRulesAfter
  apply List.map_congr_left
  intro r _
  unfold inputRuleAfter
  rw [inputConstraintsAfter_eq]

/-- C9 witness: a two-constraint in-scope rule next to an out-of-scope
rule, evaluated. -/
theorem C9_input_mutation_witness :
    inputRulesAfter "ks1" [sampleRule, outOfScopeRule] =
      [sampleRule, outOfScopeRule].map fun r =>
        if ruleInScope "ks1" r then
          { r with labelConstraints :=
              [wnConstraint, tiflashConstraint].take r.labelConstraints.length ++
                r.labelConstraints.drop 2 }
        else r :=
  C9_input_mutation "ks1" [sampleRule, outOfScopeRule]
    [rewriteRule sampleRule] (by decide)

/-- C10: only the first engine_role-keyed constraint is inspected: when it
is well-formed (NotIn with values exactly [write]) both programs' scans
pass, whatever constraints — same-keyed and malformed included — follow
it. -/
theorem C10_first_match_wins (pre suf : List LabelConstraint) (c : LabelConstraint)
    (hpre : ∀ d ∈ pre, d.key ≠ LabelKeyEngineRole)
    (hkey : c.key = LabelKeyEngineRole) (hop : c.op = NotIn)
    (hval : c.values = [LabelValueEngineRoleWrite]) :
    checkRuleExclusion (pre ++ c :: suf) = .ok () ∧
      transformExclusionCheck (pre ++ c :: suf) = .ok () := by
  have hmain := checkRuleExclusion_of_first pre c suf hkey hop hval hpre
  exact ⟨hmain, by rw [exclusionCheck_eq]; exact hmain⟩

/-- C10 witness: a well-formed first engine_role constraint followed by a
malformed one, evaluated. -/
theorem C10_first_match_wins_witness :
    checkRuleExclusion ([⟨"zone", In, ["z1"]⟩] ++ exclConstraint ::
        [⟨"engine_role", In, ["bad"]⟩]) = .ok () ∧
      transformExclusionCheck ([⟨"zone", In, ["z1"]⟩] ++ exclConstraint ::
        [⟨"engine_role", In, ["bad"]⟩]) = .ok () :=
  C10_first_match_wins [⟨"zone", In, ["z1"]⟩] [⟨"engine_role", In, ["bad"]⟩]
    exclConstraint (by decide) (by decide) (by decide) (by decide)
